import Mathlib

/-!
Verification of the risk-reversal options screener ("Vega optimizer").

The repository contains two variants of the analysis engine:
  * the heavy, pandas-based engine in `api/analysis_engine.py`
    (embedded below in namespace `Heavy`), and
  * the dependency-light engine in `api/analyze/analysis_engine.py`
    (embedded below in namespace `Light`).

Modelling conventions:
  * Exchange quotes (bid/ask/strike/volume/...) and all derived position
    economics are modelled as exact rationals `ℚ`; fields that the raw data
    source can leave absent (NaN) are `Option ℚ`.
  * The Black-Scholes pricing model (`d1`, `bs_vega`, `bs_delta`) is modelled
    over `ℝ`, with the saturated value of `d1` at degenerate inputs
    (`T ≤ 0` or `sigma ≤ 0`) represented by the explicit three-case type
    `XReal` mirroring the IEEE infinities the Python code produces.
  * `pandas.DataFrame.sort_values(..., ascending=False)` uses numpy's
    default quicksort (introsort), which is NOT stable in general; only
    below numpy's 16-element cutoff, where it degenerates to insertion
    sort, do tied keys keep their original row order (pandas reverses the
    frame before and the permutation after the ascending argsort).  The
    heavy engine's sort is therefore modelled by the stable descending
    insertion sort `sortDescStable` below as one concrete refinement of the
    implementation-defined tie order — exact for fewer than 16 rows — and
    no theorem about the heavy engine depends on the order among tied keys.
    Python's built-in `sorted(..., reverse=True)` (light engine) is stable
    by specification and is modelled exactly by the same sort.
-/

/-! ### Stable descending sort

`sortDescStable key l` sorts `l` so that `key` is non-increasing and elements
with equal keys keep their original relative order. -/

variable {α : Type} {β : Type}

/-- Insert `a` after every element whose key is strictly larger, i.e. before
the first element whose key is `≤ key a`; tied elements already in the list
stay behind the newly inserted one. -/
def descInsert (key : α → ℚ) (a : α) : List α → List α
  | [] => [a]
  | b :: l => if key a < key b then b :: descInsert key a l else a :: b :: l

/-- Stable descending insertion sort by a rational-valued key. -/
def sortDescStable (key : α → ℚ) : List α → List α
  | [] => []
  | a :: l => descInsert key a (sortDescStable key l)

theorem perm_descInsert (key : α → ℚ) (a : α) (l : List α) :
    (descInsert key a l).Perm (a :: l) := by
  induction l with
  | nil => simp [descInsert]
  | cons b l ih =>
    by_cases h : key a < key b
    · simpa [descInsert, h] using ((ih.cons b).trans (List.Perm.swap a b l))
    · simp [descInsert, h]

theorem perm_sortDescStable (key : α → ℚ) (l : List α) :
    (sortDescStable key l).Perm l := by
  induction l with
  | nil => simp [sortDescStable]
  | cons a l ih =>
    exact (perm_descInsert key a (sortDescStable key l)).trans (ih.cons a)

theorem pairwise_descInsert (key : α → ℚ) (a : α) (l : List α)
    (h : List.Pairwise (fun x y => key y ≤ key x) l) :
    List.Pairwise (fun x y => key y ≤ key x) (descInsert key a l) := by
  induction l with
  | nil => simp [descInsert]
  | cons b l ih =>
    rw [List.pairwise_cons] at h
    obtain ⟨hb, hl⟩ := h
    by_cases hab : key a < key b
    · rw [descInsert, if_pos hab, List.pairwise_cons]
      refine ⟨?_, ih hl⟩
      intro x hx
      rcases List.mem_cons.mp ((perm_descInsert key a l).mem_iff.mp hx) with hxa | hxl
      · subst hxa; exact le_of_lt hab
      · exact hb x hxl
    · rw [descInsert, if_neg hab, List.pairwise_cons]
      refine ⟨?_, List.pairwise_cons.mpr ⟨hb, hl⟩⟩
      intro x hx
      rcases List.mem_cons.mp hx with hxb | hxl
      · subst hxb; exact le_of_not_lt hab
      · exact le_trans (hb x hxl) (le_of_not_lt hab)

theorem pairwise_sortDescStable (key : α → ℚ) (l : List α) :
    List.Pairwise (fun x y => key y ≤ key x) (sortDescStable key l) := by
  induction l with
  | nil => simp [sortDescStable]
  | cons a l ih => exact pairwise_descInsert key a (sortDescStable key l) ih

/-! ### Min-max normalization helpers

`safe_normalize` in `api/analysis_engine.py` (`rank_combinations`, lines
225-228) guards the min-max formula with `series.std() == 0 or
len(series) < 2`.  The sample standard deviation of a series is zero exactly
when its sum of squared deviations from the mean is zero (for one element it
is NaN, which compares unequal to 0, but that case is caught by the length
guard), so the guard is modelled by `ssd xs = 0 ∨ xs.length < 2`. -/

/-- Arithmetic mean of a list of rationals (`series.mean()`). -/
def listMean (xs : List ℚ) : ℚ := xs.sum / (xs.length : ℚ)

/-- Sum of squared deviations from the mean; zero exactly when the sample
standard deviation `series.std()` is zero. -/
def ssd (xs : List ℚ) : ℚ := (xs.map (fun x => (x - listMean xs) ^ 2)).sum

/-- Minimum of a list (`series.min()`; default irrelevant, only used on
non-empty lists). -/
def minList : List ℚ → ℚ
  | [] => 0
  | x :: xs => xs.foldl min x

/-- Maximum of a list (`series.max()`). -/
def maxList : List ℚ → ℚ
  | [] => 0
  | x :: xs => xs.foldl max x

/-- The normalized score `safe_normalize` assigns to the member `x` of the
factor column `xs`: `0.5` under the degenerate guard, otherwise
`(x - min) / (max - min)`. -/
def normScore (xs : List ℚ) (x : ℚ) : ℚ :=
  if ssd xs = 0 ∨ xs.length < 2 then 0.5
  else (x - minList xs) / (maxList xs - minList xs)

/-- Column-level form of `safe_normalize` (without the `reverse` flag, which
the bullish ranker never sets). -/
def safe_normalize (xs : List ℚ) : List ℚ :=
  if ssd xs = 0 ∨ xs.length < 2 then xs.map (fun _ => 0.5)
  else xs.map (fun x => (x - minList xs) / (maxList xs - minList xs))

theorem safe_normalize_eq_map (xs : List ℚ) :
    safe_normalize xs = xs.map (normScore xs) := by
  unfold safe_normalize normScore
  by_cases h : ssd xs = 0 ∨ xs.length < 2
  · simp only [if_pos h]
  · simp only [if_neg h]

/-- All members of the list are equal: the "zero variance" situation. -/
def allSame (xs : List ℚ) : Prop := ∀ y ∈ xs, ∀ z ∈ xs, y = z

instance (xs : List ℚ) : Decidable (allSame xs) := by
  unfold allSame; infer_instance

theorem sum_eq_zero_of_nonneg_aux (l : List ℚ) (hn : ∀ x ∈ l, 0 ≤ x)
    (hs : l.sum = 0) : ∀ x ∈ l, x = 0 := by
  induction l with
  | nil => intro x hx; cases hx
  | cons a l ih =>
    have ha : 0 ≤ a := hn a (List.mem_cons_self a l)
    have hl : ∀ x ∈ l, 0 ≤ x := fun x hx => hn x (List.mem_cons_of_mem a hx)
    have hsum : 0 ≤ l.sum := List.sum_nonneg hl
    rw [List.sum_cons] at hs
    have ha0 : a = 0 := by linarith
    have hl0 : l.sum = 0 := by linarith
    intro x hx
    rcases List.mem_cons.mp hx with rfl | hx
    · exact ha0
    · exact ih hl hl0 x hx

theorem sum_const_of_allSame (xs : List ℚ) (c : ℚ) (h : ∀ x ∈ xs, x = c) :
    xs.sum = (xs.length : ℚ) * c := by
  induction xs with
  | nil => simp
  | cons a l ih =>
    have ha : a = c := h a (List.mem_cons_self a l)
    have hl := ih (fun x hx => h x (List.mem_cons_of_mem a hx))
    rw [List.sum_cons, hl, ha, List.length_cons]
    push_cast
    ring

/-- Zero variance is exactly "all list members are equal". -/
theorem ssd_eq_zero_iff_allSame (xs : List ℚ) : ssd xs = 0 ↔ allSame xs := by
  constructor
  · intro h y hy z hz
    have hz' : ∀ w ∈ xs.map (fun x => (x - listMean xs) ^ 2), w = 0 := by
      refine sum_eq_zero_of_nonneg_aux _ ?_ h
      intro w hw
      obtain ⟨x, _, rfl⟩ := List.mem_map.mp hw
      positivity
    have hmem : ∀ x ∈ xs, x = listMean xs := by
      intro x hx
      have := hz' ((x - listMean xs) ^ 2) (List.mem_map.mpr ⟨x, hx, rfl⟩)
      have hx0 : x - listMean xs = 0 := by
        exact pow_eq_zero_iff (n := 2) (by norm_num) |>.mp this
      linarith
    rw [hmem y hy, hmem z hz]
  · intro h
    rcases xs with _ | ⟨a, l⟩
    · simp [ssd]
    · have hall : ∀ x ∈ a :: l, x = a :=
        fun x hx => h x hx a (List.mem_cons_self a l)
      have hsum := sum_const_of_allSame (a :: l) a hall
      have hlen : ((a :: l).length : ℚ) ≠ 0 := by
        have h1 : (0 : ℚ) < (l.length : ℚ) + 1 := by positivity
        rw [List.length_cons]
        push_cast
        linarith
      have hmean : listMean (a :: l) = a := by
        rw [listMean, hsum, mul_comm, mul_div_assoc, div_self hlen, mul_one]
      rw [ssd]
      apply List.sum_eq_zero
      intro w hw
      obtain ⟨x, hx, rfl⟩ := List.mem_map.mp hw
      rw [hmean, hall x hx]
      ring

/-! ### Raw contracts and the Chain Sanitizer

A `RawContract` is one row of the chain snapshot that `yfinance` returns.
The fields the two sanitizers explicitly guard against being absent/NaN are
modelled as `Option ℚ` (`none` standing for a missing or NaN value). -/

structure RawContract where
  strike : ℚ
  impliedVolatility : Option ℚ
  bid : Option ℚ
  ask : Option ℚ
  volume : Option ℚ
  openInterest : Option ℚ
deriving DecidableEq

/-- Pandas comparison `o > 0` on a possibly-NaN value: NaN compares false. -/
def optGtZero (o : Option ℚ) : Bool :=
  match o with
  | some v => decide (0 < v)
  | none => false

/-- The pandas elementwise test `(ask - bid) / ask < 0.6` under IEEE
semantics: dividing a non-zero numerator by zero yields `±∞` (with the sign
of the numerator) and `0/0` yields NaN; `-∞ < 0.6` is true while `+∞ < 0.6`
and `NaN < 0.6` are false. -/
def spreadLt (bid ask : ℚ) : Bool :=
  if ask = 0 then decide (ask - bid < 0)
  else decide ((ask - bid) / ask < 0.6)

namespace Heavy

/-- Row-retention predicate of `process_df` in `api/analysis_engine.py`
(lines 48-59): `dropna(subset=['impliedVolatility','bid','ask'])` followed by
the mask `((volume > 0) | (openInterest > 0)) & (impliedVolatility > 0.01) &
(bid > 0) & ((ask - bid) / ask < 0.6)`.  Note that the mask contains no
`ask > 0` conjunct. -/
def processDfKeep (c : RawContract) : Bool :=
  match c.impliedVolatility, c.bid, c.ask with
  | some iv, some bid, some ask =>
      (optGtZero c.volume || optGtZero c.openInterest) &&
        decide ((0.01 : ℚ) < iv) && decide (0 < bid) && spreadLt bid ask
  | _, _, _ => false

/-- `process_df`: the retained rows of one side of the chain (the moneyness
and expiration annotations the source then attaches are not modelled since
no claim mentions them). -/
def process_df (rows : List RawContract) : List RawContract :=
  rows.filter processDfKeep

end Heavy

/-- Python float comparison `x <= t` with a possibly-NaN (`none`) left
operand: every comparison against NaN is False, so a NaN operand never
triggers a skip condition. -/
def nanLe (x : Option ℚ) (t : ℚ) : Bool :=
  match x with
  | some v => decide (v ≤ t)
  | none => false

/-- The skip test `(ask - bid) / ask >= 0.6` under IEEE semantics with
possibly-NaN quotes: a NaN operand makes the comparison False; `ask = 0`
yields `+∞ ≥ 0.6` (True) when the numerator is positive, otherwise `-∞` or
NaN (False). -/
def spreadGe (bid ask : Option ℚ) : Bool :=
  match bid, ask with
  | some b, some a =>
      if a = 0 then decide (0 < a - b)
      else decide ((a - b) / a ≥ 0.6)
  | _, _ => false

/-- A contract dictionary as rebuilt by the light sanitizer
`process_options` (`api/analyze/analysis_engine.py`, lines 71-78): the
retained row's quote fields are copied as retrieved and may still be NaN. -/
structure LContract where
  strike : ℚ
  bid : Option ℚ
  ask : Option ℚ
  impliedVolatility : Option ℚ
  volume : Option ℚ
  openInterest : Option ℚ
deriving DecidableEq

namespace Light

/-- Per-row body of `process_options` (`api/analyze/analysis_engine.py`,
lines 49-78): `none` as result models `continue` (the row is skipped).
`yfinance` delivers an absent quote as NaN inside an existing column, so
`option.get(...)` returns NaN, never `None`, and the `is None` branches of
the source are dead; every skip comparison (`x <= 0`,
`(ask - bid)/ask >= 0.6`) is False when an operand is NaN, so NaN-quoted
rows fall through all three guards and are retained. -/
def process_option (c : RawContract) : Option LContract :=
  if nanLe c.impliedVolatility 0.01 || nanLe c.bid 0 || nanLe c.ask 0 then none
  else if nanLe c.volume 0 && nanLe c.openInterest 0 then none
  else if nanLe c.ask 0 || spreadGe c.bid c.ask then none
  else some { strike := c.strike, bid := c.bid, ask := c.ask,
              impliedVolatility := c.impliedVolatility, volume := c.volume,
              openInterest := c.openInterest }

/-- The light sanitizer: keep the rows `process_option` accepts. -/
def process_options (rows : List RawContract) : List LContract :=
  rows.filterMap process_option

end Light

/-- The retention predicate exactly as the specification words it
(spec §4.2): implied volatility present and `> 0.01`, bid present and `> 0`,
ask present and `> 0`, positive volume or open interest, and relative spread
`< 0.6`. -/
def specRetain (c : RawContract) : Bool :=
  match c.impliedVolatility, c.bid, c.ask with
  | some iv, some bid, some ask =>
      decide ((0.01 : ℚ) < iv) && decide (0 < bid) && decide (0 < ask) &&
        (decide (0 < c.volume.getD 0) || decide (0 < c.openInterest.getD 0)) &&
        decide ((ask - bid) / ask < 0.6)
  | _, _, _ => false

/-- What the heavy sanitizer actually retains: the spec predicate with the
`ask > 0` conjunct weakened — a row with `ask = 0` (and positive bid) passes,
because its spread ratio evaluates to `-∞ < 0.6` in pandas. -/
def heavyRetainSpec (c : RawContract) : Bool :=
  match c.impliedVolatility, c.bid, c.ask with
  | some iv, some bid, some ask =>
      decide ((0.01 : ℚ) < iv) && decide (0 < bid) &&
        (decide (0 < c.volume.getD 0) || decide (0 < c.openInterest.getD 0)) &&
        (decide (ask = 0) || (decide (0 < ask) && decide ((ask - bid) / ask < 0.6)))
  | _, _, _ => false

theorem optGtZero_eq_getD (u : Option ℚ) : optGtZero u = decide (0 < u.getD 0) := by
  cases u <;> simp [optGtZero]

/-- What the light sanitizer actually retains: every skip comparison of
`process_options` is False on NaN, so a present field must pass its check
while an absent/NaN field passes vacuously — implied volatility absent or
`> 0.01`, bid absent or `> 0`, ask absent or `> 0`, (volume absent or
`> 0`) or (open interest absent or `> 0`), and, when both quotes are
present, relative spread `< 0.6`. -/
def lightRetainSpec (c : RawContract) : Bool :=
  (match c.impliedVolatility with
   | some iv => decide ((0.01 : ℚ) < iv)
   | none => true) &&
  (match c.bid with
   | some b => decide ((0 : ℚ) < b)
   | none => true) &&
  (match c.ask with
   | some a => decide ((0 : ℚ) < a)
   | none => true) &&
  ((match c.volume with
    | some v => decide ((0 : ℚ) < v)
    | none => true) ||
   (match c.openInterest with
    | some o => decide ((0 : ℚ) < o)
    | none => true)) &&
  (match c.bid, c.ask with
   | some b, some a => decide ((a - b) / a < 0.6)
   | _, _ => true)

theorem not_nanLe_eq (x : Option ℚ) (t : ℚ) :
    (!(nanLe x t)) = (match x with
      | some v => decide (t < v)
      | none => true) := by
  cases x with
  | none => rfl
  | some v =>
    simp only [nanLe]
    by_cases h : v ≤ t
    · rw [decide_eq_true h, decide_eq_false (not_lt.mpr h)]
      rfl
    · rw [decide_eq_false h, decide_eq_true (not_le.mp h)]
      rfl

theorem askSpread_eq (b a : Option ℚ) :
    ((!(nanLe a 0)) && (!(spreadGe b a))) =
      ((match a with
        | some x => decide ((0 : ℚ) < x)
        | none => true) &&
       (match b, a with
        | some bb, some aa => decide ((aa - bb) / aa < 0.6)
        | _, _ => true)) := by
  rcases b with _ | bb <;> rcases a with _ | aa
  · rfl
  · simp only [nanLe, spreadGe]
    by_cases h : aa ≤ 0
    · rw [decide_eq_true h, decide_eq_false (not_lt.mpr h)]
      rfl
    · rw [decide_eq_false h, decide_eq_true (not_le.mp h)]
      rfl
  · rfl
  · by_cases ha0 : aa = 0
    · subst ha0
      simp [nanLe]
    · by_cases hap : (0 : ℚ) < aa
      · simp only [nanLe, spreadGe, if_neg ha0]
        rw [decide_eq_false (not_le.mpr hap), decide_eq_true hap]
        by_cases hsp : (aa - bb) / aa ≥ 0.6
        · rw [decide_eq_true hsp, decide_eq_false (not_lt.mpr hsp)]
          rfl
        · rw [decide_eq_false hsp, decide_eq_true (not_le.mp hsp)]
          rfl
      · simp only [nanLe, spreadGe, if_neg ha0]
        rw [decide_eq_true (le_of_not_lt hap), decide_eq_false hap]
        rfl

theorem light_keep_eq_spec (c : RawContract) :
    (Light.process_option c).isSome = lightRetainSpec c := by
  have hiso : (Light.process_option c).isSome =
      ((!(nanLe c.impliedVolatility 0.01 || nanLe c.bid 0 || nanLe c.ask 0)) &&
        (!(nanLe c.volume 0 && nanLe c.openInterest 0)) &&
        (!(nanLe c.ask 0 || spreadGe c.bid c.ask))) := by
    unfold Light.process_option
    cases h1 : (nanLe c.impliedVolatility 0.01 || nanLe c.bid 0 || nanLe c.ask 0) <;>
      cases h2 : (nanLe c.volume 0 && nanLe c.openInterest 0) <;>
        cases h3 : (nanLe c.ask 0 || spreadGe c.bid c.ask) <;>
          simp [h1, h2, h3]
  rw [hiso, Bool.not_or, Bool.not_or, Bool.not_and, Bool.not_or, askSpread_eq,
    not_nanLe_eq c.impliedVolatility 0.01, not_nanLe_eq c.bid 0,
    not_nanLe_eq c.ask 0, not_nanLe_eq c.volume 0, not_nanLe_eq c.openInterest 0]
  unfold lightRetainSpec
  ac_rfl

theorem heavy_keep_eq_amended (c : RawContract) :
    Heavy.processDfKeep c = heavyRetainSpec c := by
  rcases c with ⟨k, iv, b, a, v, o⟩
  cases iv with
  | none => rfl
  | some iv =>
    cases b with
    | none => rfl
    | some b =>
      cases a with
      | none => rfl
      | some a =>
        by_cases hb : (0 : ℚ) < b
        · have hS : spreadLt b a =
              (decide (a = 0) || (decide (0 < a) && decide ((a - b) / a < 0.6))) := by
            by_cases ha0 : a = 0
            · subst ha0
              simp [spreadLt, hb]
            · by_cases hap : (0 : ℚ) < a
              · simp [spreadLt, ha0, hap]
              · have ha : a < 0 := lt_of_le_of_ne (le_of_not_lt hap) ha0
                have hns : ¬ ((a - b) / a < 0.6) := by
                  rw [div_lt_iff_of_neg ha]
                  intro hcon
                  nlinarith
                simp [spreadLt, ha0, hap, hns]
          simp only [Heavy.processDfKeep, heavyRetainSpec, optGtZero_eq_getD, hS]
          ac_rfl
        · simp [Heavy.processDfKeep, heavyRetainSpec, spreadLt, not_lt.mp hb,
                decide_eq_false (by simpa using hb : ¬ (0:ℚ) < b)]

/-- A quote with a positive bid but a zero ask: IEEE division makes its
relative spread `-∞`, which passes the `< 0.6` test. -/
def zeroAskContract : RawContract :=
  { strike := 100, impliedVolatility := some 0.5, bid := some 1, ask := some 0,
    volume := some 1, openInterest := some 0 }

/-- C1 counterexample: the heavy sanitizer `process_df` RETAINS a contract
with `ask = 0` (and `bid = 1 > 0`, valid volatility, positive volume), while
the claimed retention predicate requires `ask > 0` and in particular demands
that every `ask = 0` contract be dropped. -/
theorem sanitizer_heavy_keeps_zero_ask :
    Heavy.processDfKeep zeroAskContract = true ∧ specRetain zeroAskContract = false := by
  constructor
  · norm_num [Heavy.processDfKeep, zeroAskContract, optGtZero, spreadLt]
  · norm_num [specRetain, zeroAskContract]

/-- A quote with a NaN bid but otherwise healthy fields: every skip
comparison of the light sanitizer is False on the NaN, so the row is
retained although the claimed predicate requires a present positive bid. -/
def nanBidContract : RawContract :=
  { strike := 100, impliedVolatility := some 0.5, bid := none, ask := some 2,
    volume := some 1, openInterest := some 0 }

/-- C1 (amended): neither sanitizer implements the claimed predicate
exactly.  The light sanitizer `process_options` retains a contract iff each
PRESENT field passes its check while an absent/NaN field passes vacuously
(every `<=`-style skip comparison is False on NaN): implied volatility
absent or `> 0.01`, bid absent or `> 0`, ask absent or `> 0`, (volume
absent or `> 0`) or (open interest absent or `> 0`), and relative spread
`< 0.6` when both quotes are present — in particular NaN-quoted rows are
retained (third conjunct: the concrete `nanBidContract` is retained while
failing the claimed predicate), but every present `ask = 0` is dropped.
The heavy sanitizer `process_df` drops all rows with absent/NaN implied
volatility, bid or ask (`dropna`), requires `iv > 0.01`, `bid > 0` and
positive volume or open interest, but has no `ask > 0` conjunct: a contract
with `ask = 0` and positive bid is retained because its pandas spread ratio
evaluates to `-∞ < 0.6`, while any contract with `ask < 0` is still dropped
by the spread test. -/
theorem sanitizer_retention_characterization (c : RawContract) :
    (Light.process_option c).isSome = lightRetainSpec c ∧
    Heavy.processDfKeep c = heavyRetainSpec c ∧
    ((Light.process_option nanBidContract).isSome = true ∧
      specRetain nanBidContract = false) :=
  ⟨light_keep_eq_spec c, heavy_keep_eq_amended c,
    by norm_num [Light.process_option, nanBidContract, nanLe, spreadGe],
    by norm_num [specRetain, nanBidContract]⟩

/-! ### Annotated contracts and the Combination Generator

After sanitization, both engines annotate each retained contract with its
Black-Scholes `delta` and `vega` (computed by the real-valued pricing model
below) and then pair out-of-the-money calls with out-of-the-money puts.  The
pairing, position economics, and validity gating operate purely on the
fields of the annotated contracts, so they are embedded over exact rationals
with `delta` and `vega` as input fields. -/

/-- One sanitized contract annotated with its Greeks, as consumed by the
pair-enumeration step of both engines. -/
structure OptContract where
  strike : ℚ
  bid : ℚ
  ask : ℚ
  impliedVolatility : ℚ
  delta : ℚ
  vega : ℚ
deriving DecidableEq

/-- Out-of-the-money calls within the strike-distance band: `strike > spot`
and `strike < spot + spot * 0.75` (`analysis_engine.py` lines 89-93; the
light engine lines 106-110 are identical). -/
def otmDistCalls (calls : List OptContract) (underlying_price : ℚ) : List OptContract :=
  (calls.filter (fun c => underlying_price < c.strike)).filter
    (fun c => c.strike < underlying_price + underlying_price * 0.75)

/-- Out-of-the-money puts within the strike-distance band: `strike < spot`
and `strike > spot - spot * 0.75`. -/
def otmDistPuts (puts : List OptContract) (underlying_price : ℚ) : List OptContract :=
  (puts.filter (fun p => p.strike < underlying_price)).filter
    (fun p => underlying_price - underlying_price * 0.75 < p.strike)

namespace Light

/-- A bullish combination as built by the light engine
(`api/analyze/analysis_engine.py` lines 135-145). -/
structure Combo where
  long_call_strike : ℚ
  short_put_strike : ℚ
  net_cost : ℚ
  net_delta : ℚ
  net_vega : ℚ
  efficiency : ℚ
  breakeven : ℚ
  expiration : String
  days_to_exp : ℤ
deriving DecidableEq

/-- A bearish combination as built by the light engine (lines 194-204). -/
structure BearCombo where
  long_put_strike : ℚ
  short_call_strike : ℚ
  net_cost : ℚ
  net_delta : ℚ
  net_vega : ℚ
  efficiency : ℚ
  breakeven : ℚ
  expiration : String
  days_to_exp : ℤ
deriving DecidableEq

/-- Inner body of the bullish pair loop (lines 118-145): `none` models
`continue`. -/
def bullishPair (call put : OptContract) (expiration_date : String)
    (days_to_exp : ℤ) : Option Combo :=
  if call.strike ≤ put.strike then none
  else
    let net_cost := call.ask - put.bid
    let strike_diff := call.strike - put.strike
    let efficiency := if 0 < strike_diff then -net_cost / strike_diff else 0
    if 20 < |net_cost| then none
    else
      let net_delta := call.delta - put.delta
      let net_vega := call.vega - put.vega
      if net_delta ≤ 0.1 ∨ net_vega ≤ 0 then none
      else some { long_call_strike := call.strike, short_put_strike := put.strike,
                  net_cost := net_cost, net_delta := net_delta, net_vega := net_vega,
                  efficiency := efficiency, breakeven := call.strike + net_cost,
                  expiration := expiration_date, days_to_exp := days_to_exp }

/-- `analyze_bullish_risk_reversal` of the light engine (lines 90-147): the
Greek-annotation loop (lines 97-103) is the real-valued pricing model; its
outputs are the `delta`/`vega` fields of the input contracts here.  `days`
is the day count `(exp_date - today).days` that the source derives from the
expiration date. -/
def analyze_bullish_risk_reversal (calls puts : List OptContract)
    (underlying_price : ℚ) (expiration_date : String) (days : ℤ) : List Combo :=
  let otm_calls := otmDistCalls calls underlying_price
  let otm_puts := otmDistPuts puts underlying_price
  if otm_calls.isEmpty || otm_puts.isEmpty then []
  else otm_calls.flatMap (fun call =>
    otm_puts.filterMap (fun put => bullishPair call put expiration_date days))

/-- Inner body of the bearish pair loop (lines 176-204). -/
def bearishPair (put call : OptContract) (expiration_date : String)
    (days_to_exp : ℤ) : Option BearCombo :=
  if call.strike ≤ put.strike then none
  else
    let net_cost := put.ask - call.bid
    let strike_diff := call.strike - put.strike
    let efficiency := if 0 < strike_diff then -net_cost / strike_diff else 0
    if 20 < |net_cost| then none
    else
      let net_delta := put.delta - call.delta
      let net_vega := put.vega - call.vega
      if -0.1 ≤ net_delta ∨ 0.01 < net_vega then none
      else some { long_put_strike := put.strike, short_call_strike := call.strike,
                  net_cost := net_cost, net_delta := net_delta, net_vega := net_vega,
                  efficiency := efficiency, breakeven := put.strike - net_cost,
                  expiration := expiration_date, days_to_exp := days_to_exp }

/-- `analyze_bearish_risk_reversal` of the light engine (lines 149-206). -/
def analyze_bearish_risk_reversal (calls puts : List OptContract)
    (underlying_price : ℚ) (expiration_date : String) (days : ℤ) : List BearCombo :=
  let otm_calls := otmDistCalls calls underlying_price
  let otm_puts := otmDistPuts puts underlying_price
  if otm_calls.isEmpty || otm_puts.isEmpty then []
  else otm_puts.flatMap (fun put =>
    otm_calls.filterMap (fun call => bearishPair put call expiration_date days))

end Light

namespace Heavy

/-- Output of `calculate_alternative_pricing` (`api/analysis_engine.py`
lines 522-564), a debugging-only comparison of pricing conventions. -/
structure PricingComparison where
  current_method : ℚ
  mid_price_method : ℚ
  optimistic_method : ℚ
  call_spread : ℚ
  put_spread : ℚ
  total_spread : ℚ
  call_mid : ℚ
  put_mid : ℚ
deriving DecidableEq

/-- `calculate_alternative_pricing(call_row, put_row, strategy_type)`.  The
typed embedding cannot raise the `KeyError`/`TypeError` the source guards
against, so the `None` fallback is unreachable and omitted. -/
def calculate_alternative_pricing (call_row put_row : OptContract)
    (strategy_type : String) : PricingComparison :=
  let current_net_cost :=
    if strategy_type = "bullish" then call_row.ask - put_row.bid
    else put_row.ask - call_row.bid
  let call_mid := (call_row.bid + call_row.ask) / 2
  let put_mid := (put_row.bid + put_row.ask) / 2
  let mid_net_cost :=
    if strategy_type = "bullish" then call_mid - put_mid else put_mid - call_mid
  let optimistic_net_cost :=
    if strategy_type = "bullish" then call_row.bid - put_row.ask
    else put_row.bid - call_row.ask
  let call_spread := call_row.ask - call_row.bid
  let put_spread := put_row.ask - put_row.bid
  { current_method := current_net_cost, mid_price_method := mid_net_cost,
    optimistic_method := optimistic_net_cost, call_spread := call_spread,
    put_spread := put_spread, total_spread := call_spread + put_spread,
    call_mid := call_mid, put_mid := put_mid }

/-- The dictionary returned by `create_bullish_strategy_combination`
(lines 149-175), before `analyze_bullish_risk_reversal` attaches the
strategy/expiration tags. -/
structure BullComboCore where
  long_call_strike : ℚ
  short_put_strike : ℚ
  net_cost : ℚ
  iv_advantage : ℚ
  net_delta : ℚ
  net_vega : ℚ
  max_loss_down : ℚ
  breakeven : ℚ
  efficiency : ℚ
  pricing_comparison : PricingComparison
deriving DecidableEq

/-- `create_bullish_strategy_combination(call_row, put_row)`; the
`KeyError`/`TypeError` fallback to `None` is unreachable in the typed
embedding. -/
def create_bullish_strategy_combination (call_row put_row : OptContract) :
    BullComboCore :=
  let net_cost := call_row.ask - put_row.bid
  let strike_diff := call_row.strike - put_row.strike
  let efficiency := if 0 < strike_diff then -net_cost / strike_diff else 0
  { long_call_strike := call_row.strike, short_put_strike := put_row.strike,
    net_cost := net_cost,
    iv_advantage := put_row.impliedVolatility - call_row.impliedVolatility,
    net_delta := call_row.delta - put_row.delta,
    net_vega := call_row.vega - put_row.vega,
    max_loss_down := put_row.strike - (put_row.bid - call_row.ask),
    breakeven := call_row.strike + net_cost,
    efficiency := efficiency,
    pricing_comparison := calculate_alternative_pricing call_row put_row "bullish" }

/-- The dictionary returned by `create_bearish_strategy_combination`
(lines 178-204). -/
structure BearComboCore where
  long_put_strike : ℚ
  short_call_strike : ℚ
  net_cost : ℚ
  iv_advantage : ℚ
  net_delta : ℚ
  net_vega : ℚ
  max_loss_up : ℚ
  breakeven : ℚ
  efficiency : ℚ
  pricing_comparison : PricingComparison
deriving DecidableEq

/-- `create_bearish_strategy_combination(put_row, call_row)`. -/
def create_bearish_strategy_combination (put_row call_row : OptContract) :
    BearComboCore :=
  let net_cost := put_row.ask - call_row.bid
  let strike_diff := call_row.strike - put_row.strike
  let efficiency := if 0 < strike_diff then -net_cost / strike_diff else 0
  { long_put_strike := put_row.strike, short_call_strike := call_row.strike,
    net_cost := net_cost,
    iv_advantage := call_row.impliedVolatility - put_row.impliedVolatility,
    net_delta := put_row.delta - call_row.delta,
    net_vega := put_row.vega - call_row.vega,
    max_loss_up := call_row.strike + (call_row.bid - put_row.ask),
    breakeven := put_row.strike - net_cost,
    efficiency := efficiency,
    pricing_comparison := calculate_alternative_pricing call_row put_row "bearish" }

/-- `is_valid_bullish_combo` (lines 207-211): reject if `|net_cost| > 20`,
or `net_delta ≤ 0.1`, or `net_vega ≤ 0`. -/
def is_valid_bullish_combo (combo : BullComboCore) : Bool :=
  if 20 < |combo.net_cost| then false
  else if combo.net_delta ≤ 0.1 ∨ combo.net_vega ≤ 0 then false
  else true

/-- `is_valid_bearish_combo` (lines 214-218): reject if `|net_cost| > 20`,
or `net_delta ≥ -0.1`, or `net_vega > 0.01`. -/
def is_valid_bearish_combo (combo : BearComboCore) : Bool :=
  if 20 < |combo.net_cost| then false
  else if -0.1 ≤ combo.net_delta ∨ 0.01 < combo.net_vega then false
  else true

/-- A validated bullish combination after `combo.update({...})` attaches the
strategy label, expiration and day count (lines 105-106). -/
structure BullCombo extends BullComboCore where
  strategy_type : String
  expiration : String
  days_to_exp : ℤ
deriving DecidableEq

/-- A validated bearish combination after `combo.update({...})`
(lines 143-144). -/
structure BearCombo extends BearComboCore where
  strategy_type : String
  expiration : String
  days_to_exp : ℤ
deriving DecidableEq

/-- `analyze_bullish_risk_reversal` of the heavy engine (lines 73-108); as
in the light embedding, the Greek annotation loop is the real-valued pricing
model and its outputs are the `delta`/`vega` fields of the inputs. -/
def analyze_bullish_risk_reversal (calls puts : List OptContract)
    (underlying_price : ℚ) (expiration_date : String) (days : ℤ) : List BullCombo :=
  let otm_calls := otmDistCalls calls underlying_price
  let otm_puts := otmDistPuts puts underlying_price
  if otm_calls.isEmpty || otm_puts.isEmpty then []
  else otm_calls.flatMap (fun call =>
    otm_puts.filterMap (fun put =>
      if call.strike ≤ put.strike then none
      else
        let combo := create_bullish_strategy_combination call put
        if is_valid_bullish_combo combo then
          some { toBullComboCore := combo,
                 strategy_type := "Bullish Risk Reversal",
                 expiration := expiration_date, days_to_exp := days }
        else none))

/-- `analyze_bearish_risk_reversal` of the heavy engine (lines 111-146). -/
def analyze_bearish_risk_reversal (calls puts : List OptContract)
    (underlying_price : ℚ) (expiration_date : String) (days : ℤ) : List BearCombo :=
  let otm_calls := otmDistCalls calls underlying_price
  let otm_puts := otmDistPuts puts underlying_price
  if otm_calls.isEmpty || otm_puts.isEmpty then []
  else otm_puts.flatMap (fun put =>
    otm_calls.filterMap (fun call =>
      if call.strike ≤ put.strike then none
      else
        let combo := create_bearish_strategy_combination put call
        if is_valid_bearish_combo combo then
          some { toBearComboCore := combo,
                 strategy_type := "Bearish Risk Reversal",
                 expiration := expiration_date, days_to_exp := days }
        else none))

end Heavy

theorem mem_light_analyze_bullish {calls puts : List OptContract} {spot : ℚ}
    {e : String} {d : ℤ} {c : Light.Combo} :
    c ∈ Light.analyze_bullish_risk_reversal calls puts spot e d ↔
      ∃ call ∈ otmDistCalls calls spot, ∃ put ∈ otmDistPuts puts spot,
        Light.bullishPair call put e d = some c := by
  unfold Light.analyze_bullish_risk_reversal
  by_cases hg : ((otmDistCalls calls spot).isEmpty || (otmDistPuts puts spot).isEmpty) = true
  · rw [if_pos hg]
    simp only [List.not_mem_nil, false_iff]
    rintro ⟨call, hcall, put, hput, _⟩
    rcases Bool.or_eq_true_iff.mp hg with h | h
    · rw [List.isEmpty_iff.mp h] at hcall
      exact absurd hcall (List.not_mem_nil call)
    · rw [List.isEmpty_iff.mp h] at hput
      exact absurd hput (List.not_mem_nil put)
  · rw [if_neg hg]
    simp [List.mem_flatMap, List.mem_filterMap]

theorem mem_light_analyze_bearish {calls puts : List OptContract} {spot : ℚ}
    {e : String} {d : ℤ} {c : Light.BearCombo} :
    c ∈ Light.analyze_bearish_risk_reversal calls puts spot e d ↔
      ∃ put ∈ otmDistPuts puts spot, ∃ call ∈ otmDistCalls calls spot,
        Light.bearishPair put call e d = some c := by
  unfold Light.analyze_bearish_risk_reversal
  by_cases hg : ((otmDistCalls calls spot).isEmpty || (otmDistPuts puts spot).isEmpty) = true
  · rw [if_pos hg]
    simp only [List.not_mem_nil, false_iff]
    rintro ⟨put, hput, call, hcall, _⟩
    rcases Bool.or_eq_true_iff.mp hg with h | h
    · rw [List.isEmpty_iff.mp h] at hcall
      exact absurd hcall (List.not_mem_nil call)
    · rw [List.isEmpty_iff.mp h] at hput
      exact absurd hput (List.not_mem_nil put)
  · rw [if_neg hg]
    simp [List.mem_flatMap, List.mem_filterMap]

theorem mem_heavy_analyze_bullish {calls puts : List OptContract} {spot : ℚ}
    {e : String} {d : ℤ} {c : Heavy.BullCombo} :
    c ∈ Heavy.analyze_bullish_risk_reversal calls puts spot e d ↔
      ∃ call ∈ otmDistCalls calls spot, ∃ put ∈ otmDistPuts puts spot,
        put.strike < call.strike ∧
        Heavy.is_valid_bullish_combo
          (Heavy.create_bullish_strategy_combination call put) = true ∧
        c = { toBullComboCore := Heavy.create_bullish_strategy_combination call put,
              strategy_type := "Bullish Risk Reversal",
              expiration := e, days_to_exp := d } := by
  unfold Heavy.analyze_bullish_risk_reversal
  by_cases hg : ((otmDistCalls calls spot).isEmpty || (otmDistPuts puts spot).isEmpty) = true
  · rw [if_pos hg]
    simp only [List.not_mem_nil, false_iff]
    rintro ⟨call, hcall, put, hput, _⟩
    rcases Bool.or_eq_true_iff.mp hg with h | h
    · rw [List.isEmpty_iff.mp h] at hcall
      exact absurd hcall (List.not_mem_nil call)
    · rw [List.isEmpty_iff.mp h] at hput
      exact absurd hput (List.not_mem_nil put)
  · rw [if_neg hg]
    simp only [List.mem_flatMap, List.mem_filterMap]
    constructor
    · rintro ⟨call, hcall, put, hput, hsome⟩
      refine ⟨call, hcall, put, hput, ?_⟩
      by_cases h1 : call.strike ≤ put.strike
      · rw [if_pos h1] at hsome; cases hsome
      · rw [if_neg h1] at hsome
        by_cases h2 : Heavy.is_valid_bullish_combo
            (Heavy.create_bullish_strategy_combination call put) = true
        · rw [if_pos h2] at hsome
          injection hsome with hsome
          exact ⟨not_le.mp h1, h2, hsome.symm⟩
        · rw [if_neg h2] at hsome; cases hsome
    · rintro ⟨call, hcall, put, hput, h1, h2, rfl⟩
      refine ⟨call, hcall, put, hput, ?_⟩
      rw [if_neg (not_le.mpr h1), if_pos h2]

theorem mem_heavy_analyze_bearish {calls puts : List OptContract} {spot : ℚ}
    {e : String} {d : ℤ} {c : Heavy.BearCombo} :
    c ∈ Heavy.analyze_bearish_risk_reversal calls puts spot e d ↔
      ∃ put ∈ otmDistPuts puts spot, ∃ call ∈ otmDistCalls calls spot,
        put.strike < call.strike ∧
        Heavy.is_valid_bearish_combo
          (Heavy.create_bearish_strategy_combination put call) = true ∧
        c = { toBearComboCore := Heavy.create_bearish_strategy_combination put call,
              strategy_type := "Bearish Risk Reversal",
              expiration := e, days_to_exp := d } := by
  unfold Heavy.analyze_bearish_risk_reversal
  by_cases hg : ((otmDistCalls calls spot).isEmpty || (otmDistPuts puts spot).isEmpty) = true
  · rw [if_pos hg]
    simp only [List.not_mem_nil, false_iff]
    rintro ⟨put, hput, call, hcall, _⟩
    rcases Bool.or_eq_true_iff.mp hg with h | h
    · rw [List.isEmpty_iff.mp h] at hcall
      exact absurd hcall (List.not_mem_nil call)
    · rw [List.isEmpty_iff.mp h] at hput
      exact absurd hput (List.not_mem_nil put)
  · rw [if_neg hg]
    simp only [List.mem_flatMap, List.mem_filterMap]
    constructor
    · rintro ⟨put, hput, call, hcall, hsome⟩
      refine ⟨put, hput, call, hcall, ?_⟩
      by_cases h1 : call.strike ≤ put.strike
      · rw [if_pos h1] at hsome; cases hsome
      · rw [if_neg h1] at hsome
        by_cases h2 : Heavy.is_valid_bearish_combo
            (Heavy.create_bearish_strategy_combination put call) = true
        · rw [if_pos h2] at hsome
          injection hsome with hsome
          exact ⟨not_le.mp h1, h2, hsome.symm⟩
        · rw [if_neg h2] at hsome; cases hsome
    · rintro ⟨put, hput, call, hcall, h1, h2, rfl⟩
      refine ⟨put, hput, call, hcall, ?_⟩
      rw [if_neg (not_le.mpr h1), if_pos h2]

theorem light_bullishPair_spec {call put : OptContract} {e : String} {d : ℤ}
    {c : Light.Combo} (h : Light.bullishPair call put e d = some c) :
    put.strike < call.strike ∧ |c.net_cost| ≤ 20 ∧ 0.1 < c.net_delta ∧
      0 < c.net_vega ∧
      c = { long_call_strike := call.strike, short_put_strike := put.strike,
            net_cost := call.ask - put.bid,
            net_delta := call.delta - put.delta,
            net_vega := call.vega - put.vega,
            efficiency := if 0 < call.strike - put.strike
              then -(call.ask - put.bid) / (call.strike - put.strike) else 0,
            breakeven := call.strike + (call.ask - put.bid),
            expiration := e, days_to_exp := d } := by
  by_cases h1 : call.strike ≤ put.strike
  · unfold Light.bullishPair at h
    rw [if_pos h1] at h
    cases h
  · have hd : 0 < call.strike - put.strike := by
      have := not_le.mp h1
      linarith
    unfold Light.bullishPair at h
    rw [if_neg h1] at h
    simp only at h
    rw [if_pos hd] at h
    split_ifs at h with h2 h3
    injection h with h
    subst h
    push_neg at h3
    refine ⟨not_le.mp h1, not_lt.mp h2, h3.1, h3.2, ?_⟩
    simp only [if_pos hd]

theorem light_bearishPair_spec {put call : OptContract} {e : String} {d : ℤ}
    {c : Light.BearCombo} (h : Light.bearishPair put call e d = some c) :
    put.strike < call.strike ∧ |c.net_cost| ≤ 20 ∧ c.net_delta < -0.1 ∧
      c.net_vega ≤ 0.01 ∧
      c = { long_put_strike := put.strike, short_call_strike := call.strike,
            net_cost := put.ask - call.bid,
            net_delta := put.delta - call.delta,
            net_vega := put.vega - call.vega,
            efficiency := if 0 < call.strike - put.strike
              then -(put.ask - call.bid) / (call.strike - put.strike) else 0,
            breakeven := put.strike - (put.ask - call.bid),
            expiration := e, days_to_exp := d } := by
  by_cases h1 : call.strike ≤ put.strike
  · unfold Light.bearishPair at h
    rw [if_pos h1] at h
    cases h
  · have hd : 0 < call.strike - put.strike := by
      have := not_le.mp h1
      linarith
    unfold Light.bearishPair at h
    rw [if_neg h1] at h
    simp only at h
    rw [if_pos hd] at h
    split_ifs at h with h2 h3
    injection h with h
    subst h
    push_neg at h3
    refine ⟨not_le.mp h1, not_lt.mp h2, h3.1, h3.2, ?_⟩
    simp only [if_pos hd]

theorem heavy_valid_bullish_spec {combo : Heavy.BullComboCore}
    (h : Heavy.is_valid_bullish_combo combo = true) :
    |combo.net_cost| ≤ 20 ∧ 0.1 < combo.net_delta ∧ 0 < combo.net_vega := by
  unfold Heavy.is_valid_bullish_combo at h
  split_ifs at h with h1 h2
  push_neg at h2
  exact ⟨not_lt.mp h1, h2.1, h2.2⟩

theorem heavy_valid_bearish_spec {combo : Heavy.BearComboCore}
    (h : Heavy.is_valid_bearish_combo combo = true) :
    |combo.net_cost| ≤ 20 ∧ combo.net_delta < -0.1 ∧ combo.net_vega ≤ 0.01 := by
  unfold Heavy.is_valid_bearish_combo at h
  split_ifs at h with h1 h2
  push_neg at h2
  exact ⟨not_lt.mp h1, h2.1, h2.2⟩

/-- C2: every combination returned by either engine's Combination Generator
passes the validity gate.  Bullish combinations have
`long_call_strike > short_put_strike`, `|net_cost| ≤ 20`, `net_delta > 0.1`
and `net_vega > 0`; bearish combinations have
`long_put_strike < short_call_strike`, `|net_cost| ≤ 20`, `net_delta < -0.1`
and `net_vega ≤ 0.01`. -/
theorem combo_validity_gate :
    (∀ (calls puts : List OptContract) (spot : ℚ) (e : String) (d : ℤ)
       (c : Heavy.BullCombo), c ∈ Heavy.analyze_bullish_risk_reversal calls puts spot e d →
       c.short_put_strike < c.long_call_strike ∧ |c.net_cost| ≤ 20 ∧
         0.1 < c.net_delta ∧ 0 < c.net_vega) ∧
    (∀ (calls puts : List OptContract) (spot : ℚ) (e : String) (d : ℤ)
       (c : Heavy.BearCombo), c ∈ Heavy.analyze_bearish_risk_reversal calls puts spot e d →
       c.long_put_strike < c.short_call_strike ∧ |c.net_cost| ≤ 20 ∧
         c.net_delta < -0.1 ∧ c.net_vega ≤ 0.01) ∧
    (∀ (calls puts : List OptContract) (spot : ℚ) (e : String) (d : ℤ)
       (c : Light.Combo), c ∈ Light.analyze_bullish_risk_reversal calls puts spot e d →
       c.short_put_strike < c.long_call_strike ∧ |c.net_cost| ≤ 20 ∧
         0.1 < c.net_delta ∧ 0 < c.net_vega) ∧
    (∀ (calls puts : List OptContract) (spot : ℚ) (e : String) (d : ℤ)
       (c : Light.BearCombo), c ∈ Light.analyze_bearish_risk_reversal calls puts spot e d →
       c.long_put_strike < c.short_call_strike ∧ |c.net_cost| ≤ 20 ∧
         c.net_delta < -0.1 ∧ c.net_vega ≤ 0.01) := by
  refine ⟨?_, ?_, ?_, ?_⟩
  · intro calls puts spot e d c hc
    obtain ⟨call, _, put, _, hlt, hvalid, rfl⟩ := mem_heavy_analyze_bullish.mp hc
    obtain ⟨hnc, hnd, hnv⟩ := heavy_valid_bullish_spec hvalid
    exact ⟨hlt, hnc, hnd, hnv⟩
  · intro calls puts spot e d c hc
    obtain ⟨put, _, call, _, hlt, hvalid, rfl⟩ := mem_heavy_analyze_bearish.mp hc
    obtain ⟨hnc, hnd, hnv⟩ := heavy_valid_bearish_spec hvalid
    exact ⟨hlt, hnc, hnd, hnv⟩
  · intro calls puts spot e d c hc
    obtain ⟨call, _, put, _, hp⟩ := mem_light_analyze_bullish.mp hc
    obtain ⟨hlt, hnc, hnd, hnv, hcv⟩ := light_bullishPair_spec hp
    subst hcv
    exact ⟨hlt, hnc, hnd, hnv⟩
  · intro calls puts spot e d c hc
    obtain ⟨put, _, call, _, hp⟩ := mem_light_analyze_bearish.mp hc
    obtain ⟨hlt, hnc, hnd, hnv, hcv⟩ := light_bearishPair_spec hp
    subst hcv
    exact ⟨hlt, hnc, hnd, hnv⟩

/-- The out-of-the-money call of the worked scenario in the specification
(spot 100, strike 110, bid 2.00, ask 2.20, iv 0.30), annotated with
representative Greeks. -/
def wCall : OptContract :=
  { strike := 110, bid := 2, ask := 2.2, impliedVolatility := 0.3,
    delta := 0.4, vega := 0.12 }

/-- The out-of-the-money put of the worked scenario (strike 90, bid 1.50,
ask 1.70, iv 0.35). -/
def wPut : OptContract :=
  { strike := 90, bid := 1.5, ask := 1.7, impliedVolatility := 0.35,
    delta := -0.3, vega := 0.11 }

/-- The bullish combination the heavy engine forms from `wCall`/`wPut`. -/
def wBullCombo : Heavy.BullCombo :=
  { toBullComboCore := Heavy.create_bullish_strategy_combination wCall wPut,
    strategy_type := "Bullish Risk Reversal", expiration := "2025-06-20",
    days_to_exp := 30 }

theorem wBullCombo_mem :
    wBullCombo ∈ Heavy.analyze_bullish_risk_reversal [wCall] [wPut] 100 "2025-06-20" 30 := by
  refine mem_heavy_analyze_bullish.mpr ⟨wCall, ?_, wPut, ?_, ?_, ?_, rfl⟩
  · norm_num [otmDistCalls, wCall]
  · norm_num [otmDistPuts, wPut]
  · norm_num [wCall, wPut]
  · norm_num [Heavy.is_valid_bullish_combo, Heavy.create_bullish_strategy_combination,
      wCall, wPut, abs_le]

/-- C2 witness: the gate conclusions hold at the concrete combination the
heavy engine builds from the scenario quotes. -/
theorem combo_validity_gate_check :
    wBullCombo.short_put_strike < wBullCombo.long_call_strike ∧
      |wBullCombo.net_cost| ≤ 20 ∧ 0.1 < wBullCombo.net_delta ∧
      0 < wBullCombo.net_vega :=
  combo_validity_gate.1 [wCall] [wPut] 100 "2025-06-20" 30 wBullCombo wBullCombo_mem

/-- C3: every returned combination's derived fields satisfy the step-5
equations.  Bullish combinations (both engines) have
`net_cost = call.ask - put.bid`, `net_delta = call.delta - put.delta`,
`net_vega = call.vega - put.vega`, `breakeven = long_call_strike + net_cost`
and, since the strike difference of a returned combination is positive,
`efficiency = -net_cost / (long_call_strike - short_put_strike)`; the
`create_*` functions return `efficiency = 0` whenever the strike difference
is non-positive.  Bearish combinations are the mirror with
`net_cost = put.ask - call.bid`, `net_delta = put.delta - call.delta`,
`net_vega = put.vega - call.vega` and
`breakeven = long_put_strike - net_cost`. -/
theorem combo_derived_fields :
    (∀ (calls puts : List OptContract) (spot : ℚ) (e : String) (d : ℤ)
       (c : Heavy.BullCombo), c ∈ Heavy.analyze_bullish_risk_reversal calls puts spot e d →
       ∃ call ∈ otmDistCalls calls spot, ∃ put ∈ otmDistPuts puts spot,
         c.net_cost = call.ask - put.bid ∧
         c.net_delta = call.delta - put.delta ∧
         c.net_vega = call.vega - put.vega ∧
         c.breakeven = c.long_call_strike + c.net_cost ∧
         c.short_put_strike < c.long_call_strike ∧
         c.efficiency = -c.net_cost / (c.long_call_strike - c.short_put_strike)) ∧
    (∀ (calls puts : List OptContract) (spot : ℚ) (e : String) (d : ℤ)
       (c : Heavy.BearCombo), c ∈ Heavy.analyze_bearish_risk_reversal calls puts spot e d →
       ∃ put ∈ otmDistPuts puts spot, ∃ call ∈ otmDistCalls calls spot,
         c.net_cost = put.ask - call.bid ∧
         c.net_delta = put.delta - call.delta ∧
         c.net_vega = put.vega - call.vega ∧
         c.breakeven = c.long_put_strike - c.net_cost ∧
         c.long_put_strike < c.short_call_strike ∧
         c.efficiency = -c.net_cost / (c.short_call_strike - c.long_put_strike)) ∧
    (∀ call put : OptContract, call.strike - put.strike ≤ 0 →
       (Heavy.create_bullish_strategy_combination call put).efficiency = 0) ∧
    (∀ put call : OptContract, call.strike - put.strike ≤ 0 →
       (Heavy.create_bearish_strategy_combination put call).efficiency = 0) ∧
    (∀ (calls puts : List OptContract) (spot : ℚ) (e : String) (d : ℤ)
       (c : Light.Combo), c ∈ Light.analyze_bullish_risk_reversal calls puts spot e d →
       ∃ call ∈ otmDistCalls calls spot, ∃ put ∈ otmDistPuts puts spot,
         c.net_cost = call.ask - put.bid ∧
         c.net_delta = call.delta - put.delta ∧
         c.net_vega = call.vega - put.vega ∧
         c.breakeven = c.long_call_strike + c.net_cost ∧
         c.short_put_strike < c.long_call_strike ∧
         c.efficiency = -c.net_cost / (c.long_call_strike - c.short_put_strike)) ∧
    (∀ (calls puts : List OptContract) (spot : ℚ) (e : String) (d : ℤ)
       (c : Light.BearCombo), c ∈ Light.analyze_bearish_risk_reversal calls puts spot e d →
       ∃ put ∈ otmDistPuts puts spot, ∃ call ∈ otmDistCalls calls spot,
         c.net_cost = put.ask - call.bid ∧
         c.net_delta = put.delta - call.delta ∧
         c.net_vega = put.vega - call.vega ∧
         c.breakeven = c.long_put_strike - c.net_cost ∧
         c.long_put_strike < c.short_call_strike ∧
         c.efficiency = -c.net_cost / (c.short_call_strike - c.long_put_strike)) := by
  refine ⟨?_, ?_, ?_, ?_, ?_, ?_⟩
  · intro calls puts spot e d c hc
    obtain ⟨call, hcall, put, hput, hlt, _, rfl⟩ := mem_heavy_analyze_bullish.mp hc
    have hd : 0 < call.strike - put.strike := by linarith
    refine ⟨call, hcall, put, hput, rfl, rfl, rfl, rfl, hlt, ?_⟩
    simp only [Heavy.create_bullish_strategy_combination, if_pos hd]
  · intro calls puts spot e d c hc
    obtain ⟨put, hput, call, hcall, hlt, _, rfl⟩ := mem_heavy_analyze_bearish.mp hc
    have hd : 0 < call.strike - put.strike := by linarith
    refine ⟨put, hput, call, hcall, rfl, rfl, rfl, rfl, hlt, ?_⟩
    simp only [Heavy.create_bearish_strategy_combination, if_pos hd]
  · intro call put h
    simp only [Heavy.create_bullish_strategy_combination, if_neg (not_lt.mpr h)]
  · intro put call h
    simp only [Heavy.create_bearish_strategy_combination, if_neg (not_lt.mpr h)]
  · intro calls puts spot e d c hc
    obtain ⟨call, hcall, put, hput, hp⟩ := mem_light_analyze_bullish.mp hc
    obtain ⟨hlt, _, _, _, rfl⟩ := light_bullishPair_spec hp
    have hd : 0 < call.strike - put.strike := by linarith
    refine ⟨call, hcall, put, hput, rfl, rfl, rfl, rfl, hlt, ?_⟩
    simp only [if_pos hd]
  · intro calls puts spot e d c hc
    obtain ⟨put, hput, call, hcall, hp⟩ := mem_light_analyze_bearish.mp hc
    obtain ⟨hlt, _, _, _, rfl⟩ := light_bearishPair_spec hp
    have hd : 0 < call.strike - put.strike := by linarith
    refine ⟨put, hput, call, hcall, rfl, rfl, rfl, rfl, hlt, ?_⟩
    simp only [if_pos hd]

/-- C3 witness: applying the degenerate-strike clause at concrete quotes
(a "call" at strike 90 against a "put" at strike 110 has non-positive strike
difference, so `create_bullish_strategy_combination` sets efficiency 0), and
the bullish equations at the scenario combination. -/
theorem combo_derived_fields_check :
    (Heavy.create_bullish_strategy_combination wPut wCall).efficiency = 0 ∧
      wBullCombo.net_cost = wCall.ask - wPut.bid ∧
      wBullCombo.breakeven = wBullCombo.long_call_strike + wBullCombo.net_cost := by
  refine ⟨combo_derived_fields.2.2.1 wPut wCall (by norm_num [wCall, wPut]), ?_, ?_⟩
  · obtain ⟨call, hcall, put, hput, h1, -, -, -, -, -⟩ :=
      combo_derived_fields.1 [wCall] [wPut] 100 "2025-06-20" 30 wBullCombo wBullCombo_mem
    have hc : call = wCall := by
      have := hcall
      simp only [otmDistCalls, List.mem_filter] at this
      rcases this with ⟨⟨hm, -⟩, -⟩
      simpa using hm
    have hp : put = wPut := by
      have := hput
      simp only [otmDistPuts, List.mem_filter] at this
      rcases this with ⟨⟨hm, -⟩, -⟩
      simpa using hm
    rw [hc, hp] at h1
    exact h1
  · obtain ⟨call, hcall, put, hput, -, -, -, h4, -, -⟩ :=
      combo_derived_fields.1 [wCall] [wPut] 100 "2025-06-20" 30 wBullCombo wBullCombo_mem
    exact h4

namespace Heavy

/-- A row of the ranked DataFrame produced by `rank_combinations`
(lines 221-234): the combination plus its four score columns. -/
structure Ranked extends BullCombo where
  delta_score : ℚ
  vega_score : ℚ
  efficiency_score : ℚ
  total_score : ℚ
deriving DecidableEq

/-- The DataFrame after the four score-column assignments of
`rank_combinations` (lines 230-233), before sorting: each row carries
`safe_normalize` of its factor against the full column plus the weighted
total.  `scoreRows_delta_col` below checks this row-wise form against the
column-wise `safe_normalize`. -/
def scoreRows (combinations : List BullCombo) : List Ranked :=
  let ds := combinations.map (fun c => c.net_delta)
  let vs := combinations.map (fun c => c.net_vega)
  let es := combinations.map (fun c => c.efficiency)
  combinations.map (fun c =>
    { toBullCombo := c,
      delta_score := normScore ds c.net_delta,
      vega_score := normScore vs c.net_vega,
      efficiency_score := normScore es c.efficiency,
      total_score := normScore ds c.net_delta * 0.40 +
        normScore es c.efficiency * 0.40 + normScore vs c.net_vega * 0.20 })

/-- `rank_combinations` (lines 221-234): score columns, then
`df.sort_values('total_score', ascending=False)`.  The pandas default sort
kind (quicksort) is not guaranteed stable, so the order among tied
`total_score` values is implementation-defined; `sortDescStable` is used as
one concrete refinement of that order (see the header comment), and no
theorem below depends on how ties are ordered. -/
def rank_combinations (combinations : List BullCombo) : List Ranked :=
  if combinations.isEmpty then []
  else sortDescStable (fun r => r.total_score) (scoreRows combinations)

end Heavy

theorem scoreRows_delta_col (combinations : List Heavy.BullCombo) :
    (Heavy.scoreRows combinations).map (fun r => r.delta_score) =
      safe_normalize (combinations.map (fun c => c.net_delta)) := by
  simp only [Heavy.scoreRows, safe_normalize_eq_map, List.map_map]
  rfl

theorem normScore_degenerate (xs : List ℚ) (x : ℚ)
    (h : xs.length < 2 ∨ allSame xs) : normScore xs x = 0.5 := by
  unfold normScore
  rcases h with h | h
  · rw [if_pos (Or.inr h)]
  · rw [if_pos (Or.inl ((ssd_eq_zero_iff_allSame xs).mpr h))]

theorem normScore_minmax (xs : List ℚ) (x : ℚ)
    (h : ¬(xs.length < 2 ∨ allSame xs)) :
    normScore xs x = (x - minList xs) / (maxList xs - minList xs) := by
  push_neg at h
  unfold normScore
  rw [if_neg]
  rintro (hs | hl)
  · exact h.2 ((ssd_eq_zero_iff_allSame xs).mp hs)
  · exact absurd hl (not_lt.mpr h.1)


namespace Light

/-- The composite ordering key of the light ranker (`rank_combinations`,
`api/analyze/analysis_engine.py` lines 212-214):
`efficiency * 0.6 + (net_delta / 10) * 0.4`. -/
def score (combo : Combo) : ℚ :=
  combo.efficiency * 0.6 + combo.net_delta / 10 * 0.4

/-- `rank_combinations` of the light engine (lines 208-216):
`sorted(combinations, key=score, reverse=True)`; Python's `sorted` is stable
and `reverse=True` keeps tied elements in original order. -/
def rank_combinations (combinations : List Combo) : List Combo :=
  if combinations.isEmpty then []
  else sortDescStable score combinations

end Light

/-- A zero pricing-comparison block for hand-built ranking inputs. -/
def wPricing0 : Heavy.PricingComparison :=
  { current_method := 0, mid_price_method := 0, optimistic_method := 0,
    call_spread := 0, put_spread := 0, total_spread := 0, call_mid := 0,
    put_mid := 0 }

/-- First of two combinations with identical scoring factors. -/
def wRComboA : Heavy.BullCombo :=
  { long_call_strike := 110, short_put_strike := 90, net_cost := 0.5,
    iv_advantage := 0, net_delta := 0.7, net_vega := 0.01, max_loss_down := 90.5,
    breakeven := 110.5, efficiency := 0.2, pricing_comparison := wPricing0,
    strategy_type := "Bullish Risk Reversal", expiration := "2025-06-20",
    days_to_exp := 30 }

/-- Second combination, identical scoring factors but a different strike. -/
def wRComboB : Heavy.BullCombo :=
  { long_call_strike := 111, short_put_strike := 90, net_cost := 0.5,
    iv_advantage := 0, net_delta := 0.7, net_vega := 0.01, max_loss_down := 90.5,
    breakeven := 111.5, efficiency := 0.2, pricing_comparison := wPricing0,
    strategy_type := "Bullish Risk Reversal", expiration := "2025-06-20",
    days_to_exp := 30 }

/-- The scored row the ranker builds for `wRComboA`: all three factor
columns are constant, so every score is the neutral `0.5`. -/
def wRankRowA : Heavy.Ranked :=
  { toBullCombo := wRComboA, delta_score := 0.5, vega_score := 0.5,
    efficiency_score := 0.5, total_score := 0.5 }

theorem wRankRowA_mem : wRankRowA ∈ Heavy.scoreRows [wRComboA, wRComboB] := by
  norm_num [Heavy.scoreRows, wRankRowA, wRComboA, wRComboB, normScore, ssd, listMean]

/-- C4 (amended): the heavy engine's `rank_combinations` computes, for each
of `net_delta`, `net_vega` and `efficiency` over the full pooled candidate
set, the min-max normalization `(value - min)/(max - min)`, assigning `0.5`
to every member when the set has fewer than 2 members or zero variance (all
factor values equal); `total_score = 0.40*delta_score +
0.40*efficiency_score + 0.20*vega_score`; and it returns a permutation of
the scored rows sorted descending by `total_score`.  The order among rows
with equal `total_score` is implementation-defined (pandas' default
quicksort is not guaranteed stable) and is not asserted.  The light
engine's `rank_combinations` implements a different ranking — it returns a
permutation of its input sorted descending by
`efficiency*0.6 + net_delta/10*0.4`, with no normalization (see the
counterexample). -/
theorem ranking_engine_spec (combinations : List Heavy.BullCombo) :
    (Heavy.rank_combinations combinations).Perm (Heavy.scoreRows combinations) ∧
    List.Pairwise (fun a b => b.total_score ≤ a.total_score)
      (Heavy.rank_combinations combinations) ∧
    (Heavy.scoreRows combinations).map (fun r => r.toBullCombo) = combinations ∧
    (∀ r ∈ Heavy.scoreRows combinations,
      r.total_score = r.delta_score * 0.40 + r.efficiency_score * 0.40 +
        r.vega_score * 0.20) ∧
    (∀ r ∈ Heavy.scoreRows combinations,
      ((combinations.length < 2 ∨ allSame (combinations.map (fun c => c.net_delta))) →
        r.delta_score = 0.5) ∧
      (¬(combinations.length < 2 ∨ allSame (combinations.map (fun c => c.net_delta))) →
        r.delta_score =
          (r.net_delta - minList (combinations.map (fun c => c.net_delta))) /
          (maxList (combinations.map (fun c => c.net_delta)) -
            minList (combinations.map (fun c => c.net_delta)))) ∧
      ((combinations.length < 2 ∨ allSame (combinations.map (fun c => c.net_vega))) →
        r.vega_score = 0.5) ∧
      (¬(combinations.length < 2 ∨ allSame (combinations.map (fun c => c.net_vega))) →
        r.vega_score =
          (r.net_vega - minList (combinations.map (fun c => c.net_vega))) /
          (maxList (combinations.map (fun c => c.net_vega)) -
            minList (combinations.map (fun c => c.net_vega)))) ∧
      ((combinations.length < 2 ∨ allSame (combinations.map (fun c => c.efficiency))) →
        r.efficiency_score = 0.5) ∧
      (¬(combinations.length < 2 ∨ allSame (combinations.map (fun c => c.efficiency))) →
        r.efficiency_score =
          (r.efficiency - minList (combinations.map (fun c => c.efficiency))) /
          (maxList (combinations.map (fun c => c.efficiency)) -
            minList (combinations.map (fun c => c.efficiency))))) ∧
    (∀ lcs : List Light.Combo,
      (Light.rank_combinations lcs).Perm lcs ∧
      List.Pairwise (fun a b => Light.score b ≤ Light.score a)
        (Light.rank_combinations lcs)) := by
  have hlen : ∀ f : Heavy.BullCombo → ℚ,
      (combinations.map f).length = combinations.length := fun f => List.length_map _ f
  refine ⟨?_, ?_, ?_, ?_, ?_, ?_⟩
  · unfold Heavy.rank_combinations
    by_cases hg : combinations.isEmpty = true
    · rw [if_pos hg, List.isEmpty_iff.mp hg]
      simp [Heavy.scoreRows]
    · rw [if_neg hg]
      exact perm_sortDescStable _ _
  · unfold Heavy.rank_combinations
    by_cases hg : combinations.isEmpty = true
    · rw [if_pos hg]
      exact List.Pairwise.nil
    · rw [if_neg hg]
      exact pairwise_sortDescStable _ _
  · simp only [Heavy.scoreRows, List.map_map]
    exact List.map_id'' (fun _ => rfl) combinations
  · intro r hr
    simp only [Heavy.scoreRows, List.mem_map] at hr
    obtain ⟨c, -, rfl⟩ := hr
    rfl
  · intro r hr
    simp only [Heavy.scoreRows, List.mem_map] at hr
    obtain ⟨c, -, rfl⟩ := hr
    refine ⟨?_, ?_, ?_, ?_, ?_, ?_⟩
    · intro h
      exact normScore_degenerate _ _ (by rwa [hlen])
    · intro h
      exact normScore_minmax _ _ (by rwa [hlen])
    · intro h
      exact normScore_degenerate _ _ (by rwa [hlen])
    · intro h
      exact normScore_minmax _ _ (by rwa [hlen])
    · intro h
      exact normScore_degenerate _ _ (by rwa [hlen])
    · intro h
      exact normScore_minmax _ _ (by rwa [hlen])
  · intro lcs
    constructor
    · unfold Light.rank_combinations
      by_cases hg : lcs.isEmpty = true
      · rw [if_pos hg, List.isEmpty_iff.mp hg]
      · rw [if_neg hg]
        exact perm_sortDescStable _ _
    · unfold Light.rank_combinations
      by_cases hg : lcs.isEmpty = true
      · rw [if_pos hg]
        exact List.Pairwise.nil
      · rw [if_neg hg]
        exact pairwise_sortDescStable _ _

/-- C4 witness: on the two-member zero-variance candidate set the scored row
of `wRComboA` gets the neutral delta score `0.5` and its total is the
0.40/0.40/0.20 weighting of its scores. -/
theorem ranking_engine_spec_check :
    wRankRowA.delta_score = 0.5 ∧
      wRankRowA.total_score = wRankRowA.delta_score * 0.40 +
        wRankRowA.efficiency_score * 0.40 + wRankRowA.vega_score * 0.20 := by
  have h := ranking_engine_spec [wRComboA, wRComboB]
  refine ⟨(h.2.2.2.2.1 wRankRowA wRankRowA_mem).1 (Or.inr ?_),
    h.2.2.2.1 wRankRowA wRankRowA_mem⟩
  intro y hy z hz
  simp [wRComboA, wRComboB] at hy hz
  rw [hy, hz]

/-- Modelled from the spec: the composite score the claim ascribes to the
Ranking Engine — each factor min-max normalized (via `normScore`) over the
full pooled candidate set, weighted `0.40*delta_score +
0.40*efficiency_score + 0.20*vega_score`.  Stated over light combinations
so the light ranker's actual order can be compared with the claimed one. -/
def claimedTotal (combinations : List Light.Combo) (c : Light.Combo) : ℚ :=
  normScore (combinations.map (fun x => x.net_delta)) c.net_delta * 0.40 +
  normScore (combinations.map (fun x => x.efficiency)) c.efficiency * 0.40 +
  normScore (combinations.map (fun x => x.net_vega)) c.net_vega * 0.20

/-- A candidate that the claimed normalized scoring ranks first. -/
def c4LightA : Light.Combo :=
  { long_call_strike := 110, short_put_strike := 90, net_cost := 0.5,
    net_delta := 0, net_vega := 1, efficiency := 1, breakeven := 110.5,
    expiration := "2026-01-16", days_to_exp := 120 }

/-- A candidate that the light ranker nevertheless places first. -/
def c4LightB : Light.Combo :=
  { long_call_strike := 115, short_put_strike := 90, net_cost := 0.5,
    net_delta := 100, net_vega := 0, efficiency := 0, breakeven := 115.5,
    expiration := "2026-01-16", days_to_exp := 120 }

/-- C4 counterexample: the light engine's `rank_combinations` — one of the
claim's two cited Ranking Engines — returns the pool `[c4LightA, c4LightB]`
as `[c4LightB, c4LightA]`, which is NOT sorted descending by the claimed
min-max-normalized composite score: the claimed total of the first returned
element (`c4LightB`, 0.4) is strictly below that of the second
(`c4LightA`, 0.6).  The light ranker orders by
`efficiency*0.6 + net_delta/10*0.4` with no normalization. -/
theorem light_rank_not_normalized_total :
    Light.rank_combinations [c4LightA, c4LightB] = [c4LightB, c4LightA] ∧
    claimedTotal [c4LightA, c4LightB] c4LightB <
      claimedTotal [c4LightA, c4LightB] c4LightA := by
  constructor
  · norm_num [Light.rank_combinations, sortDescStable, descInsert, Light.score,
      c4LightA, c4LightB]
  · norm_num [claimedTotal, normScore, ssd, listMean, minList, maxList,
      min_def, max_def, c4LightA, c4LightB]


/-- Python's `f"{x:.3f}"` rounds to three decimals; modelled as decimal
rounding of the exact rational (the float's binary tie-breaking is
irrelevant to the claims below). -/
def round3 (x : ℚ) : ℚ := round (x * 1000) / 1000

/-- One row of the `top_5` table of `format_analysis_result`
(`api/analyze/analysis_engine.py` lines 256-273), carrying the numeric
values the seven formatted cells are rendered from (bullish layout). -/
structure ReportRow where
  rank : ℕ
  expiration : String
  longStrike : ℚ
  shortStrike : ℚ
  netCostAbs : ℚ
  isCredit : Bool
  netVega3 : ℚ
  effPct : ℚ
  score3 : ℚ
deriving DecidableEq

namespace Light

/-- One row of the `top_5` table, built from the enumeration index and the
combination: rank `i+1`, the expiration, the two strikes, the absolute net
cost with its CREDIT flag, net vega and the SCORE cell, both `.3f`-rounded,
and efficiency as rendered by `.1%`. -/
def toRow (p : ℕ × Combo) : ReportRow :=
  { rank := p.1 + 1, expiration := p.2.expiration,
    longStrike := p.2.long_call_strike, shortStrike := p.2.short_put_strike,
    netCostAbs := abs p.2.net_cost, isCredit := decide (p.2.net_cost < 0),
    netVega3 := round3 p.2.net_vega, effPct := p.2.efficiency,
    score3 := round3 p.2.efficiency }

/-- The `top_5` table of `format_analysis_result` for the bullish layout:
`enumerate(combinations[:5])`, one row per combination.  The last cell — the
SCORE column — is rendered from `combo['efficiency']` with `.3f` (line 272),
not from the ordering key. -/
def format_top5 (combinations : List Combo) : List ReportRow :=
  (combinations.take 5).enum.map toRow

end Light

namespace Heavy

/-- `ranked.groupby('expiration').head(3)`: walk the ranked rows in order,
keeping each row only while fewer than 3 rows of its expiration have been
kept (`run_bullish_analysis`, `api/analysis_engine.py` line 430; pandas
`groupby(...).head(3)` preserves original row order). -/
def head3ByExp : List Ranked → (String → ℕ) → List Ranked
  | [], _ => []
  | r :: rs, seen =>
    if seen r.expiration < 3 then
      r :: head3ByExp rs (fun e => if e = r.expiration then seen e + 1 else seen e)
    else head3ByExp rs seen

/-- The final result set of `run_bullish_analysis` (line 430):
`groupby('expiration').head(3)` followed by
`sort_values('total_score', ascending=False)`. -/
def final_results (ranked : List Ranked) : List Ranked :=
  sortDescStable (fun r => r.total_score) (head3ByExp ranked (fun _ => 0))

end Heavy

theorem countP_head3ByExp (rs : List Heavy.Ranked) (seen : String → ℕ) (e : String) :
    (Heavy.head3ByExp rs seen).countP (fun r => r.expiration == e) ≤ 3 - seen e := by
  induction rs generalizing seen with
  | nil => simp [Heavy.head3ByExp]
  | cons r rs ih =>
    by_cases hlt : seen r.expiration < 3
    · rw [Heavy.head3ByExp, if_pos hlt]
      by_cases he : r.expiration = e
      · rw [List.countP_cons_of_pos _ _ (by simp [he])]
        have h2 := ih (fun e' => if e' = r.expiration then seen e' + 1 else seen e')
        have hseen : (if e = r.expiration then seen e + 1 else seen e) = seen e + 1 :=
          if_pos he.symm
        simp only [hseen] at h2
        have hlt' : seen e < 3 := by rwa [he] at hlt
        omega
      · rw [List.countP_cons_of_neg _ _ (by simp [he])]
        have h2 := ih (fun e' => if e' = r.expiration then seen e' + 1 else seen e')
        have hne : (if e = r.expiration then seen e + 1 else seen e) = seen e := by
          rw [if_neg (fun hc => he hc.symm)]
        simpa [hne] using h2
    · rw [Heavy.head3ByExp, if_neg hlt]
      exact ih seen

/-- C5 (amended): in the heavy engine the ranked set is grouped by
expiration with at most the top 3 rows per expiration kept, and the reduced
set is re-sorted descending by `total_score`, so its final report never
contains more than 3 entries sharing one expiration; the light engine's
report applies no per-expiration cap, and its top-5 table can contain up to
5 entries sharing one expiration (see the counterexample). -/
theorem per_expiration_cap (ranked : List Heavy.Ranked) (e : String) :
    (Heavy.final_results ranked).countP (fun r => r.expiration == e) ≤ 3 ∧
    List.Pairwise (fun a b => b.total_score ≤ a.total_score)
      (Heavy.final_results ranked) := by
  constructor
  · have hperm := perm_sortDescStable (fun r : Heavy.Ranked => r.total_score)
      (Heavy.head3ByExp ranked (fun _ => 0))
    rw [Heavy.final_results, hperm.countP_eq]
    simpa using countP_head3ByExp ranked (fun _ => 0) e
  · exact pairwise_sortDescStable _ _

/-- Four valid light-engine combinations sharing one expiration, with
distinct ordering keys. -/
def fourSameExpiry : List Light.Combo :=
  [ { long_call_strike := 110, short_put_strike := 90, net_cost := 0.5,
      net_delta := 0.5, net_vega := 0.02, efficiency := 0.4, breakeven := 110.5,
      expiration := "2026-01-16", days_to_exp := 120 },
    { long_call_strike := 115, short_put_strike := 90, net_cost := 0.4,
      net_delta := 0.5, net_vega := 0.02, efficiency := 0.3, breakeven := 115.4,
      expiration := "2026-01-16", days_to_exp := 120 },
    { long_call_strike := 120, short_put_strike := 90, net_cost := 0.3,
      net_delta := 0.5, net_vega := 0.02, efficiency := 0.2, breakeven := 120.3,
      expiration := "2026-01-16", days_to_exp := 120 },
    { long_call_strike := 125, short_put_strike := 90, net_cost := 0.2,
      net_delta := 0.5, net_vega := 0.02, efficiency := 0.1, breakeven := 125.2,
      expiration := "2026-01-16", days_to_exp := 120 } ]

/-- C5 counterexample: the light engine's reported top-5 table for a ranked
list of four combinations of one expiration contains 4 rows sharing that
expiration — the final reported output of this engine is not bounded by 3
entries per expiration. -/
theorem light_top5_four_same_expiration :
    (Light.format_top5 (Light.rank_combinations fourSameExpiry)).countP
      (fun r => r.expiration == "2026-01-16") = 4 := by
  norm_num [Light.rank_combinations, Light.format_top5, Light.toRow, Light.score,
    sortDescStable, descInsert, fourSameExpiry, round3, List.enum,
    List.enumFrom, List.countP, List.countP.go]

/-- A light combination whose efficiency (0.2) differs from its composite
ordering key (0.2·0.6 + 0.5/10·0.4 = 0.14) after rounding to 3 decimals. -/
def c9combo : Light.Combo :=
  { long_call_strike := 110, short_put_strike := 90, net_cost := 0.5,
    net_delta := 0.5, net_vega := 0.02, efficiency := 0.2, breakeven := 110.5,
    expiration := "2026-01-16", days_to_exp := 120 }

/-- C9: in the light engine, the SCORE cell of every top-5 report row is the
combination's `efficiency` rounded to three decimals; the ranked order
itself is descending in the composite key
`efficiency*0.6 + net_delta/10*0.4`, which differs from the reported SCORE
value in general (concrete instance in the last conjunct). -/
theorem light_score_column_is_efficiency :
    (∀ combinations : List Light.Combo,
       (Light.format_top5 combinations).map (fun r => r.score3) =
         (combinations.take 5).map (fun c => round3 c.efficiency)) ∧
    (∀ combinations : List Light.Combo,
       List.Pairwise (fun a b => Light.score b ≤ Light.score a)
         (Light.rank_combinations combinations)) ∧
    round3 c9combo.efficiency ≠ round3 (Light.score c9combo) := by
  refine ⟨?_, ?_, ?_⟩
  · intro combinations
    suffices h : ∀ (n : ℕ) (l : List Light.Combo),
        ((List.enumFrom n l).map Light.toRow).map (fun r => r.score3) =
          l.map (fun c => round3 c.efficiency) by
      exact h 0 (combinations.take 5)
    intro n l
    induction l generalizing n with
    | nil => rfl
    | cons a l ih =>
      simp only [List.enumFrom, List.map_cons, ih]
      rfl
  · intro combinations
    unfold Light.rank_combinations
    by_cases hg : combinations.isEmpty = true
    · rw [if_pos hg]
      exact List.Pairwise.nil
    · rw [if_neg hg]
      exact pairwise_sortDescStable _ _
  · norm_num [c9combo, round3, Light.score, round_eq]

/-! ### The Black-Scholes pricing model

`d1`, `bs_vega` and `bs_delta` appear identically (up to the numerics
library) in both engines (`api/analysis_engine.py` lines 20-38,
`api/analyze/analysis_engine.py` lines 8-34).  They are modelled over `ℝ`.
The Python `d1` returns `float('inf')`/`float('-inf')` at degenerate
inputs; the saturated value is represented by `XReal`.  `math.erf(inf) = 1`
and `scipy.stats.norm.cdf(inf) = 1` (resp. `0` at `-inf`), and the normal
density vanishes at `±inf`, which fixes the infinite cases of the extended
CDF and PDF below. -/

/-- A real number or a signed infinity, the value set of the Python `d1`. -/
inductive XReal where
  | negInf : XReal
  | finite (x : ℝ) : XReal
  | posInf : XReal

/-- Call or put, the `option_type` parameter of `bs_delta`. -/
inductive OptionType where
  | call : OptionType
  | put : OptionType
deriving DecidableEq

/-- `normal_pdf` (`api/analyze/analysis_engine.py` line 12-14): the standard
normal density `exp(-x²/2)/√(2π)`; `scipy.stats.norm.pdf` in the heavy
engine. -/
noncomputable def normal_pdf (x : ℝ) : ℝ :=
  Real.exp (-(1/2) * (x * x)) / Real.sqrt (2 * Real.pi)

/-- `normal_cdf` (line 8-10): `0.5*(1 + erf(x/√2))`, i.e. the standard
normal CDF, modelled as the integral of the density;
`scipy.stats.norm.cdf` in the heavy engine. -/
noncomputable def normal_cdf (x : ℝ) : ℝ :=
  ∫ t in Set.Iic x, normal_pdf t

/-- The CDF evaluated at a possibly-infinite argument, as the float code
does: `erf`/`norm.cdf` return exactly `1` at `+inf` and `0` at `-inf`. -/
noncomputable def normalCdfX : XReal → ℝ
  | XReal.negInf => 0
  | XReal.finite x => normal_cdf x
  | XReal.posInf => 1

/-- The density evaluated at a possibly-infinite argument: `exp(-inf) = 0`,
so the density vanishes at both infinities. -/
noncomputable def normalPdfX : XReal → ℝ
  | XReal.negInf => 0
  | XReal.finite x => normal_pdf x
  | XReal.posInf => 0

/-- `d1(S, K, T, r, sigma, q)` (heavy lines 20-22, light lines 16-19): the
guard `T <= 0 or sigma <= 0` saturates to `+inf` when `S > K`, else `-inf`;
otherwise the standard formula. -/
noncomputable def d1 (S K T r sigma q : ℝ) : XReal :=
  if T ≤ 0 ∨ sigma ≤ 0 then (if S > K then XReal.posInf else XReal.negInf)
  else XReal.finite
    ((Real.log (S / K) + (r - q + (1/2) * sigma ^ 2) * T) / (sigma * Real.sqrt T))

/-- `bs_vega` (heavy lines 29-32, light lines 24-28): `0` at degenerate
inputs, else `S * exp(-q*T) * pdf(d1) * sqrt(T) / 100`. -/
noncomputable def bs_vega (S K T r sigma q : ℝ) : ℝ :=
  if T ≤ 0 ∨ sigma ≤ 0 then 0
  else S * Real.exp (-q * T) * normalPdfX (d1 S K T r sigma q) * Real.sqrt T / 100

/-- `bs_delta` (heavy lines 35-38, light lines 30-34): at `T ≤ 0` the
intrinsic collapse by moneyness; otherwise `exp(-q*T) * cdf(d1)` for a call
and `exp(-q*T) * (cdf(d1) - 1)` for a put. -/
noncomputable def bs_delta (S K T r sigma : ℝ) (option_type : OptionType) (q : ℝ) : ℝ :=
  if T ≤ 0 then
    (if S > K ∧ option_type = OptionType.call then 1
     else if S < K ∧ option_type = OptionType.put then -1 else 0)
  else
    if option_type = OptionType.call then
      Real.exp (-q * T) * normalCdfX (d1 S K T r sigma q)
    else Real.exp (-q * T) * (normalCdfX (d1 S K T r sigma q) - 1)

/-- A sanitized quote as consumed by the Greek-annotation loops (heavy lines
80-87, light lines 97-103): the fields `bs_vega`/`bs_delta` read. -/
structure RContract where
  strike : ℝ
  impliedVolatility : ℝ

/-- The Greeks attached to one contract by the annotation loop, using the
contract's own implied volatility; `bs_vega` is called identically for the
call side and the put side, while `bs_delta` receives the option type. -/
noncomputable def annotateGreeks (option_type : OptionType) (S T r q : ℝ)
    (c : RContract) : ℝ × ℝ :=
  (bs_delta S c.strike T r c.impliedVolatility option_type q,
   bs_vega S c.strike T r c.impliedVolatility q)

/-- C6: at degenerate pricing inputs, for every `S, K, r, q`: if `T ≤ 0` or
`sigma ≤ 0` then `d1` returns `+∞` when `S > K` and `-∞` otherwise and
`bs_vega` returns `0`; and at `T ≤ 0`, `bs_delta` returns `1` for a call
when `S > K`, `-1` for a put when `S < K`, and `0` in every other case.
(The guards return before any division, so no division by zero occurs in
these branches.) -/
theorem degenerate_pricing (S K T r sigma q : ℝ) (h : T ≤ 0 ∨ sigma ≤ 0) :
    d1 S K T r sigma q = (if S > K then XReal.posInf else XReal.negInf) ∧
    bs_vega S K T r sigma q = 0 ∧
    (T ≤ 0 →
      bs_delta S K T r sigma OptionType.call q = (if S > K then 1 else 0) ∧
      bs_delta S K T r sigma OptionType.put q = (if S < K then -1 else 0)) := by
  refine ⟨?_, ?_, ?_⟩
  · rw [d1, if_pos h]
  · rw [bs_vega, if_pos h]
  · intro hT
    constructor
    · by_cases hSK : S > K <;> simp [bs_delta, hT, hSK]
    · by_cases hSK : S < K <;> simp [bs_delta, hT, hSK]

/-- C6 witness: at `T = 0`, `S = 2 > K = 1`, the saturated `d1` is `+∞`,
vega is `0` and the call delta is `1`. -/
theorem degenerate_pricing_check :
    ((0:ℝ) ≤ 0 ∨ (1:ℝ) ≤ 0) ∧ d1 2 1 0 0 1 0 = XReal.posInf ∧
      bs_vega 2 1 0 0 1 0 = 0 ∧ bs_delta 2 1 0 0 1 OptionType.call 0 = 1 := by
  have h := degenerate_pricing 2 1 0 0 1 0 (Or.inl le_rfl)
  refine ⟨Or.inl le_rfl, ?_, h.2.1, ?_⟩
  · rw [h.1, if_pos (by norm_num : (2:ℝ) > 1)]
  · rw [(h.2.2 le_rfl).1, if_pos (by norm_num : (2:ℝ) > 1)]

/-- C7: for every valid input with `T > 0` and `sigma > 0`, the call delta
minus the put delta equals `e^(-qT)` (put-call delta parity), and the vega
the annotation loop attaches to a call leg equals the vega it attaches to a
put leg of the same contract (`bs_vega` takes no option type). -/
theorem delta_vega_parity (S K T r sigma q : ℝ) (hT : 0 < T) (_hs : 0 < sigma) :
    bs_delta S K T r sigma OptionType.call q -
      bs_delta S K T r sigma OptionType.put q = Real.exp (-q * T) ∧
    (∀ c : RContract,
      (annotateGreeks OptionType.call S T r q c).2 =
        (annotateGreeks OptionType.put S T r q c).2) := by
  constructor
  · have hT' : ¬ T ≤ 0 := not_le.mpr hT
    simp only [bs_delta, if_neg hT']
    rw [if_pos trivial, if_neg (show OptionType.put ≠ OptionType.call by decide)]
    ring
  · intro c
    rfl

/-- C7 witness: at `S = K = T = sigma = 1`, `r = q = 0` the parity holds
with right-hand side `e^0`. -/
theorem delta_vega_parity_check :
    (0:ℝ) < 1 ∧
      bs_delta 1 1 1 0 1 OptionType.call 0 - bs_delta 1 1 1 0 1 OptionType.put 0 =
        Real.exp (-0 * 1) :=
  ⟨one_pos, (delta_vega_parity 1 1 1 0 1 0 one_pos one_pos).1⟩

/-- C10: for `T > 0` and `sigma ≤ 0`, delta is obtained by plugging the
saturated `d1` into the live-option formula rather than the `T ≤ 0`
collapse: a call returns `e^(-qT)` when `S > K` and `0` when `S ≤ K`, and a
put returns `0` when `S > K` and `-e^(-qT)` when `S ≤ K` — in particular a
deep-in-the-money put returns `-e^(-qT)`, not `-1`. -/
theorem saturated_sigma_delta (S K T r sigma q : ℝ) (hT : 0 < T) (hs : sigma ≤ 0) :
    bs_delta S K T r sigma OptionType.call q =
      (if S > K then Real.exp (-q * T) else 0) ∧
    bs_delta S K T r sigma OptionType.put q =
      (if S > K then 0 else -Real.exp (-q * T)) := by
  have hT' : ¬ T ≤ 0 := not_le.mpr hT
  have hd : d1 S K T r sigma q = (if S > K then XReal.posInf else XReal.negInf) := by
    rw [d1, if_pos (Or.inr hs)]
  by_cases hSK : S > K
  · rw [if_pos hSK] at hd
    constructor
    · simp [bs_delta, hT', hd, normalCdfX, hSK]
    · simp [bs_delta, hT', hd, normalCdfX, hSK]
  · rw [if_neg hSK] at hd
    constructor
    · simp [bs_delta, hT', hd, normalCdfX, hSK]
    · simp [bs_delta, hT', hd, normalCdfX, hSK]

/-- C10 witness: a deep-in-the-money put (`S = 1 < K = 2`) at `T = 1`,
`sigma = 0`, `q = 0` returns `-e^(-0·1)`. -/
theorem saturated_sigma_delta_check :
    (0:ℝ) < 1 ∧ (0:ℝ) ≤ 0 ∧
      bs_delta 1 2 1 0 0 OptionType.put 0 = -Real.exp (-0 * 1) := by
  have h := (saturated_sigma_delta 1 2 1 0 0 0 one_pos le_rfl).2
  rw [if_neg (by norm_num : ¬(1:ℝ) > 2)] at h
  exact ⟨one_pos, le_rfl, h⟩

/-- C8: whenever the out-of-the-money plus strike-distance filtering leaves
the call side or the put side empty, both engines' generators return the
empty collection (no error) for that expiry. -/
theorem empty_otm_yields_empty (calls puts : List OptContract) (spot : ℚ)
    (e : String) (d : ℤ)
    (h : otmDistCalls calls spot = [] ∨ otmDistPuts puts spot = []) :
    Light.analyze_bullish_risk_reversal calls puts spot e d = [] ∧
    Light.analyze_bearish_risk_reversal calls puts spot e d = [] ∧
    Heavy.analyze_bullish_risk_reversal calls puts spot e d = [] ∧
    Heavy.analyze_bearish_risk_reversal calls puts spot e d = [] := by
  have hg : ((otmDistCalls calls spot).isEmpty || (otmDistPuts puts spot).isEmpty) = true := by
    rcases h with h | h <;> simp [h]
  refine ⟨?_, ?_, ?_, ?_⟩
  · rw [Light.analyze_bullish_risk_reversal]
    simp only [hg, if_true]
  · rw [Light.analyze_bearish_risk_reversal]
    simp only [hg, if_true]
  · rw [Heavy.analyze_bullish_risk_reversal]
    simp only [hg, if_true]
  · rw [Heavy.analyze_bearish_risk_reversal]
    simp only [hg, if_true]

/-- C8 witness: with no calls at all the filtered call side is empty and
all four generators return the empty collection. -/
theorem empty_otm_yields_empty_check :
    otmDistCalls [] (100:ℚ) = [] ∧
      Light.analyze_bullish_risk_reversal [] [wPut] 100 "2025-06-20" 30 = [] ∧
      Heavy.analyze_bearish_risk_reversal [] [wPut] 100 "2025-06-20" 30 = [] := by
  have h := empty_otm_yields_empty [] [wPut] 100 "2025-06-20" 30 (Or.inl rfl)
  exact ⟨rfl, h.1, h.2.2.2⟩
